import Mathlib

/-!
# Threshold-alerting monitors: `CoinPriceMonitor` and `FundRateMonitor`

A shallow embedding of the two Go programs of the repository.

* Go `float64` values are only ever compared by the code that is modelled, so a
  value is a NaN, an infinity, or the exact rational a finite double stands for.
* Go `int64` subtraction wraps; it is modelled on `Int` with an explicit
  reduction into the signed 64-bit range.
* Calls into the Go standard library and the websocket package (`strconv`,
  `fmt`, `encoding/json`, float multiplication) are parameters of the model.
* What the network delivers (HTTP replies, websocket frames, the clock) is the
  input of the model: a list of ticks for the polling program, a list of
  connection attempts for the streaming program.
-/

namespace Arbitrage

/-! ## Go values -/

/-- Values of Go's `float64` as far as `<` and `>` can tell them apart. -/
inductive F64 where
  | nan : F64
  | negInf : F64
  | fin (q : ℚ) : F64
  | posInf : F64
  deriving DecidableEq

/-- Go's `x < y` on `float64`: false as soon as one side is a NaN. -/
def F64.lt : F64 → F64 → Bool
  | .nan, _ => false
  | _, .nan => false
  | .negInf, .negInf => false
  | .negInf, _ => true
  | .fin _, .negInf => false
  | .fin a, .fin b => decide (a < b)
  | .fin _, .posInf => true
  | .posInf, _ => false

/-- Go's `x > y` on `float64`. -/
def F64.gt (x y : F64) : Bool := F64.lt y x

/-- Reduction of a mathematical integer into the range of Go's `int64`. -/
def wrapInt64 (x : Int) : Int := (x + 2 ^ 63) % 2 ^ 64 - 2 ^ 63

/-- Go's `a - b` on `int64`. -/
def sub64 (a b : Int) : Int := wrapInt64 (a - b)

/-- An argument of a `fmt.Sprintf` call. -/
inductive FmtArg where
  | str (s : String) : FmtArg
  | flt (x : F64) : FmtArg
  deriving DecidableEq

/-- What the SMS gateway does with one `http.Post`: the call itself fails, or a
response arrives whose body read may fail and which carries a status code. -/
inductive GatewayReply where
  | postError (err : String) : GatewayReply
  | response (readErr : Option String) (statusCode : Nat) : GatewayReply
  deriving DecidableEq

/-- One call of `sendSms`, with the clock reading of the tick that made it. -/
structure SmsCall where
  time : Int
  mobile : String
  content : String
  deriving DecidableEq

/-- Unix times that lie far enough inside `int64` for a difference of two of
them not to wrap. -/
def clockRange (t : Int) : Prop := -(2 ^ 62) ≤ t ∧ t < 2 ^ 62

instance (t : Int) : Decidable (clockRange t) := by
  unfold clockRange; infer_instance

/-! ## `CoinPriceMonitor/main.go` -/

namespace CoinPriceMonitor

def mobile : String := "139xxxxxxxx"

def smsInterval : Int := 600

/-- One element of `CoinData.Data`. -/
structure CoinRecord where
  CoinId : String
  StandardPrice : String
  deriving DecidableEq

structure CoinData where
  Code : Int
  Message : String
  Data : List CoinRecord
  deriving DecidableEq

/-- The library functions `processCoin` calls. -/
structure Lib where
  /-- The call `strconv.ParseFloat(s, 15)`; `none` is a non-nil error. -/
  parseFloat : String → Option F64
  /-- The call `fmt.Sprintf(format, args...)`. -/
  sprintf : String → List FmtArg → String

/-- The command line after validation: `os.Args[1..3]`. -/
structure Args where
  coinName : String
  alertType : String
  alertPrice : F64

/-- One iteration of the polling loop as the environment presents it: what
`http.Get` followed by the JSON decode left in `coinData` (or the transport
error), the reading of `time.Now().Unix()`, and the gateway's reply should
`sendSms` be called. -/
structure Tick where
  resp : Except String CoinData
  now : Int
  gateway : GatewayReply

/-- The `for _, coin := range coinData.Data` loop of `getCoinPrice`. -/
def getCoinPrice.scan : List CoinRecord → String → Except String String
  | [], _ => .error "no data"
  | coin :: rest, coinName =>
    if coin.CoinId == "BTCUSDT" && coinName == "btc" then .ok coin.StandardPrice
    else if coin.CoinId == "ETHUSDT" && coinName == "eth" then .ok coin.StandardPrice
    else if coin.CoinId == "SOLUSDT" && coinName == "sol" then .ok coin.StandardPrice
    else getCoinPrice.scan rest coinName

/-- The function `getCoinPrice`: a transport error is returned as it is; a decode
error is only logged, so the loop runs over whatever `coinData` holds. -/
def getCoinPrice (resp : Except String CoinData) (coinName : String) :
    Except String String :=
  match resp with
  | .error err => .error err
  | .ok coinData => getCoinPrice.scan coinData.Data coinName

/-- The function `sendSms`: the error it returns, `none` for `nil`. -/
def sendSms (gateway : GatewayReply) (_mobile _content : String) : Option String :=
  match gateway with
  | .postError err => some err
  | .response (some err) _ => some err
  | .response none statusCode => if statusCode ≠ 200 then some "sms error" else none

/-- The head of the loop body of `processCoin`: fetch the price string and parse
it; `none` stands for either `continue`. -/
def processCoin.fetch (lib : Lib) (args : Args) (tk : Tick) : Option F64 :=
  match getCoinPrice tk.resp args.coinName with
  | .error _ => none
  | .ok sPrice =>
    match lib.parseFloat sPrice with
    | none => none
    | some price => some price

/-- The body of the `for` loop of `processCoin`: the new `smsSentTime` and the
`sendSms` calls made. -/
def processCoin.iter (lib : Lib) (args : Args) (smsSentTime : Int) (tk : Tick) :
    Int × List SmsCall :=
  match processCoin.fetch lib args tk with
  | none => (smsSentTime, [])
  | some price =>
    let currentTime := tk.now
    if sub64 currentTime smsSentTime > smsInterval then
      let smsSentTime := currentTime
      let smsTemplate := "[%s：%.2f] "
      let coinName := ""
      let coinName :=
        if coinName == "btc" then "大饼"
        else if coinName == "eth" then "二饼"
        else if coinName == "sol" then "三饼"
        else coinName
      if args.alertType == "lt" && F64.lt price args.alertPrice then
        let content := lib.sprintf smsTemplate [.str coinName, .flt price]
        let _ := sendSms tk.gateway mobile content
        (smsSentTime, [⟨currentTime, mobile, content⟩])
      else if args.alertType == "gt" && F64.gt price args.alertPrice then
        let content := lib.sprintf smsTemplate [.str coinName, .flt price]
        let _ := sendSms tk.gateway mobile content
        (smsSentTime, [⟨currentTime, mobile, content⟩])
      else (smsSentTime, [])
    else (smsSentTime, [])

/-- The `for` loop of `processCoin` over a finite run of ticks, entered with a
given `smsSentTime`: the final `smsSentTime` and every `sendSms` call in order. -/
def processCoin.loop (lib : Lib) (args : Args) : Int → List Tick → Int × List SmsCall
  | smsSentTime, [] => (smsSentTime, [])
  | smsSentTime, tk :: rest =>
    let r := processCoin.iter lib args smsSentTime tk
    let r2 := processCoin.loop lib args r.1 rest
    (r2.1, r.2 ++ r2.2)

/-- The function `processCoin` after argument validation: `smsSentTime := 0`,
then the loop. -/
def processCoin (lib : Lib) (args : Args) (ticks : List Tick) : Int × List SmsCall :=
  processCoin.loop lib args 0 ticks

end CoinPriceMonitor

/-! ## `FundRateMonitor/main.go` -/

namespace FundRateMonitor

def symbol : String := "ethusdt"

def mobile : String := "139xxxxxxxx"

def rateThreshold : F64 := .fin 5

def liquidThreshold : F64 := .fin 5000

def closingThread : F64 := .fin 3200

def smsInterval : Int := 600

structure MarkPriceUpdate where
  EventType : String
  EventTime : Int
  Symbol : String
  MarkPrice : String
  EstimatedFunding : String
  SettlementTime : Int
  deriving DecidableEq

/-- The library functions `processCEX` calls. -/
structure Lib where
  /-- The call `json.Unmarshal(message, &update)`; `none` is a non-nil error. -/
  unmarshal : String → Option MarkPriceUpdate
  /-- The call `fmt.Sscanf(s, "%f", &x)`; `none` is a non-nil error. -/
  sscanf : String → Option F64
  /-- Multiplication of two `float64`. -/
  mul : F64 → F64 → F64
  /-- The call `fmt.Sprintf(format, args...)`. -/
  sprintf : String → List FmtArg → String
  /-- The call `time.UnixMilli(ms).Format("15:04:05")`. -/
  formatTime : Int → String

/-- One frame that `conn.ReadMessage` returned without error, with the reading
of `time.Now().Unix()` taken while it is handled and the gateway's reply should
`sendSms` be called. -/
structure Frame where
  message : String
  now : Int
  gateway : GatewayReply

/-- One pass of the outer loop of `processCEX`: the dial fails, or it succeeds
and the connection delivers some frames before `ReadMessage` fails. -/
inductive Attempt where
  | dialError : Attempt
  | connected (frames : List Frame) : Attempt

/-- The variables the inner loop works on: the global `msg` and the
`smsSentTime` declared after each successful dial. -/
structure LoopState where
  msg : String
  smsSentTime : Int
  deriving DecidableEq

/-- How one pass through the inner loop body ends. -/
inductive Flow where
  | next : Flow
  | brk : Flow
  deriving DecidableEq

/-- The function `setMessage`. -/
def setMessage (st : LoopState) (newMsg : String) : LoopState :=
  { st with msg := newMsg }

/-- The function `getMessage`. -/
def getMessage (st : LoopState) : String := st.msg

/-- The function `sendSms`: the error it returns, `none` for `nil`. -/
def sendSms (gateway : GatewayReply) (_mobile _content : String) : Option String :=
  match gateway with
  | .postError err => some err
  | .response (some err) _ => some err
  | .response none statusCode => if statusCode ≠ 200 then some "sms error" else none

/-- The body of the inner `for` loop of `processCEX`, from the JSON decode on:
whether the loop goes on, the variables afterwards, the `sendSms` calls made. -/
def processCEX.onFrame (lib : Lib) (st : LoopState) (fr : Frame) :
    Flow × LoopState × List SmsCall :=
  match lib.unmarshal fr.message with
  | none => (.brk, st, [])
  | some update =>
    let rValue := update.EstimatedFunding
    match lib.sscanf rValue with
    | none => (.brk, st, [])
    | some rFloat =>
      let rPercentage := lib.mul rFloat (.fin 100)
      let apyPercentage := lib.mul (lib.mul (lib.mul rFloat (.fin 100)) (.fin 6)) (.fin 365)
      match lib.sscanf update.MarkPrice with
      | none => (.brk, st, [])
      | some pMarketPrice =>
        let eventTime := lib.formatTime update.EventTime
        let result := lib.sprintf "%s  年化:%.0f  标价:%.2f  费率:%.4f  符号:%s\n"
          [.str eventTime, .flt apyPercentage, .flt pMarketPrice, .flt rPercentage,
            .str symbol]
        let st := setMessage st result
        let currentTime := fr.now
        if sub64 currentTime st.smsSentTime > smsInterval then
          let st := { st with smsSentTime := currentTime }
          let smsTemplate := "[年化:%.0f%%，价格：%.2f，%s]"
          if F64.gt pMarketPrice liquidThreshold then
            let content := lib.sprintf smsTemplate
              [.flt apyPercentage, .flt pMarketPrice, .str "补"]
            let _ := sendSms fr.gateway mobile content
            (.next, st, [⟨currentTime, mobile, content⟩])
          else if F64.lt apyPercentage rateThreshold then
            let content := lib.sprintf smsTemplate
              [.flt apyPercentage, .flt pMarketPrice, .str "负"]
            let _ := sendSms fr.gateway mobile content
            (.next, st, [⟨currentTime, mobile, content⟩])
          else if F64.lt pMarketPrice closingThread then
            let content := lib.sprintf smsTemplate
              [.flt apyPercentage, .flt pMarketPrice, .str "平"]
            let _ := sendSms fr.gateway mobile content
            (.next, st, [⟨currentTime, mobile, content⟩])
          else (.next, st, [])
        else (.next, st, [])

/-- The inner `for` loop of `processCEX` on one connection: it ends at the first
`break`, or when the frames run out and `ReadMessage` fails. -/
def processCEX.inner (lib : Lib) : LoopState → List Frame → LoopState × List SmsCall
  | st, [] => (st, [])
  | st, fr :: rest =>
    match processCEX.onFrame lib st fr with
    | (.brk, st1, calls) => (st1, calls)
    | (.next, st1, calls) =>
      let r := processCEX.inner lib st1 rest
      (r.1, calls ++ r.2)

/-- The outer `for` loop of `processCEX` over a finite run of connection
attempts: a failed dial is skipped; after a successful one `smsSentTime := 0`
and the inner loop runs. Returns the final `msg` and every `sendSms` call. -/
def processCEX.outer (lib : Lib) : String → List Attempt → String × List SmsCall
  | msg, [] => (msg, [])
  | msg, .dialError :: rest => processCEX.outer lib msg rest
  | msg, .connected frames :: rest =>
    let r := processCEX.inner lib ⟨msg, 0⟩ frames
    let r2 := processCEX.outer lib r.1.msg rest
    (r2.1, r.2 ++ r2.2)

/-- The function `processCEX`; the global `msg` starts as the empty string. -/
def processCEX (lib : Lib) (run : List Attempt) : String × List SmsCall :=
  processCEX.outer lib "" run

end FundRateMonitor

/-! ## Stand-ins for the library

Small executable stand-ins for the library parameters, enough to run the model
on concrete inputs: unsigned decimal integers for the number parsers and the
multiplication, the verbs `%s`, `%%` and `%.Nf` for `Sprintf`, and a frame
format `<mark price> <funding rate>` in place of JSON. -/

def demoDigit (c : Char) : Option Nat :=
  if '0' ≤ c ∧ c ≤ '9' then some (c.toNat - '0'.toNat) else none

def demoReadNat.go : Nat → List Char → Option Nat
  | acc, [] => some acc
  | acc, c :: rest =>
    match demoDigit c with
    | none => none
    | some d => demoReadNat.go (10 * acc + d) rest

def demoReadNat : List Char → Option Nat
  | [] => none
  | cs => demoReadNat.go 0 cs

def demoParse (s : String) : Option F64 :=
  match demoReadNat s.data with
  | none => none
  | some n => some (.fin n)

/-- Fixed-point rendering with `prec` decimals, ties to even. -/
def demoFixed (prec : Nat) : F64 → List Char
  | .nan => "NaN".data
  | .posInf => "+Inf".data
  | .negInf => "-Inf".data
  | .fin q =>
    let n := q.num.natAbs * 10 ^ prec
    let fl := n / q.den
    let rem := n % q.den
    let r := if 2 * rem > q.den ∨ (2 * rem = q.den ∧ fl % 2 = 1) then fl + 1 else fl
    let fp := (Nat.repr (r % 10 ^ prec)).data
    (if q.num < 0 then ['-'] else []) ++ (Nat.repr (r / 10 ^ prec)).data ++
      (if prec = 0 then [] else '.' :: (List.replicate (prec - fp.length) '0' ++ fp))

def demoSprintf.go : List Char → List FmtArg → List Char
  | [], _ => []
  | '%' :: '%' :: rest, args => '%' :: demoSprintf.go rest args
  | '%' :: 's' :: rest, .str s :: args => s.data ++ demoSprintf.go rest args
  | '%' :: '.' :: d :: 'f' :: rest, .flt x :: args =>
    demoFixed (d.toNat - '0'.toNat) x ++ demoSprintf.go rest args
  | c :: rest, args => c :: demoSprintf.go rest args

def demoSprintf (format : String) (args : List FmtArg) : String :=
  ⟨demoSprintf.go format.data args⟩

def demoSplit : List Char → Option (List Char × List Char)
  | [] => none
  | c :: rest =>
    if c = ' ' then some ([], rest)
    else
      match demoSplit rest with
      | none => none
      | some (a, b) => some (c :: a, b)

/-- Product of two whole numbers; anything else gives NaN. -/
def demoMul : F64 → F64 → F64
  | .fin a, .fin b =>
    if a.den = 1 ∧ b.den = 1 then .fin (Rat.ofInt (a.num * b.num)) else .nan
  | _, _ => .nan

def demoClock (ms : Int) : String :=
  let sec := (ms / 1000 % 86400).toNat
  let two := fun (n : Nat) => (if n < 10 then "0" else "") ++ Nat.repr n
  two (sec / 3600) ++ ":" ++ two (sec / 60 % 60) ++ ":" ++ two (sec % 60)

def CoinPriceMonitor.demoLib : CoinPriceMonitor.Lib :=
  { parseFloat := demoParse, sprintf := demoSprintf }

def FundRateMonitor.demoUnmarshal (message : String) :
    Option FundRateMonitor.MarkPriceUpdate :=
  match demoSplit message.data with
  | none => none
  | some (p, r) => some ⟨"markPriceUpdate", 0, "ETHUSDT", ⟨p⟩, ⟨r⟩, 0⟩

def FundRateMonitor.demoLib : FundRateMonitor.Lib :=
  { unmarshal := FundRateMonitor.demoUnmarshal, sscanf := demoParse, mul := demoMul,
    sprintf := demoSprintf, formatTime := demoClock }

/-- A polling tick whose reply lists one record. -/
def CoinPriceMonitor.demoTick (coinId price : String) (now : Int) :
    CoinPriceMonitor.Tick :=
  ⟨.ok ⟨0, "", [⟨coinId, price⟩]⟩, now, .response none 200⟩

/-! ## The claims' own vocabulary -/

/-- The identifier the claim names for a coin: `BTCUSDT` for `btc`, `ETHUSDT`
for `eth`, `SOLUSDT` for `sol`. Written from the claim, not from the code. -/
def specCoinId (coinName : String) : String :=
  if coinName = "btc" then "BTCUSDT"
  else if coinName = "eth" then "ETHUSDT"
  else if coinName = "sol" then "SOLUSDT"
  else ""

/-- The Alert Policy in the specification's words: mode `lt` and value below the
threshold, or mode `gt` and value above it. Written from the claim, not from
the code. -/
def specAlertPolicy (mode : String) (threshold value : F64) : Prop :=
  (mode = "lt" ∧ F64.lt value threshold = true) ∨
    (mode = "gt" ∧ F64.gt value threshold = true)

instance (mode : String) (threshold value : F64) :
    Decidable (specAlertPolicy mode threshold value) := by
  unfold specAlertPolicy; infer_instance

/-! ## Theorems -/

theorem sub64_of_clockRange (a b : Int) (ha : clockRange a) (hb : clockRange b) :
    sub64 a b = a - b := by
  unfold clockRange at ha hb
  unfold sub64 wrapInt64
  norm_num at ha hb ⊢
  omega

theorem clockRange_zero : clockRange 0 := by
  unfold clockRange; norm_num

theorem scan_eq_find (data : List CoinPriceMonitor.CoinRecord) (coinName : String)
    (hname : coinName = "btc" ∨ coinName = "eth" ∨ coinName = "sol") :
    CoinPriceMonitor.getCoinPrice.scan data coinName =
      match data.find? (fun r => r.CoinId == specCoinId coinName) with
      | some r => .ok r.StandardPrice
      | none => .error "no data" := by
  induction data with
  | nil => simp [CoinPriceMonitor.getCoinPrice.scan]
  | cons coin rest ih =>
    rcases hname with h | h | h <;> subst h
    · by_cases hc : coin.CoinId = "BTCUSDT" <;>
        simp_all [CoinPriceMonitor.getCoinPrice.scan, specCoinId, List.find?_cons]
    · by_cases hc : coin.CoinId = "ETHUSDT" <;>
        simp_all [CoinPriceMonitor.getCoinPrice.scan, specCoinId, List.find?_cons]
    · by_cases hc : coin.CoinId = "SOLUSDT" <;>
        simp_all [CoinPriceMonitor.getCoinPrice.scan, specCoinId, List.find?_cons]

theorem F64.lt_irrefl (x : F64) : F64.lt x x = false := by
  cases x <;> simp [F64.lt]

theorem iter_of_fetch_none (lib : CoinPriceMonitor.Lib) (args : CoinPriceMonitor.Args)
    (s : Int) (tk : CoinPriceMonitor.Tick)
    (h : CoinPriceMonitor.processCoin.fetch lib args tk = none) :
    CoinPriceMonitor.processCoin.iter lib args s tk = (s, []) := by
  simp [CoinPriceMonitor.processCoin.iter, h]

theorem iter_of_closed (lib : CoinPriceMonitor.Lib) (args : CoinPriceMonitor.Args)
    (s : Int) (tk : CoinPriceMonitor.Tick)
    (h : ¬ sub64 tk.now s > CoinPriceMonitor.smsInterval) :
    CoinPriceMonitor.processCoin.iter lib args s tk = (s, []) := by
  unfold CoinPriceMonitor.processCoin.iter
  cases CoinPriceMonitor.processCoin.fetch lib args tk <;> simp [h]

theorem iter_of_open_alert (lib : CoinPriceMonitor.Lib) (args : CoinPriceMonitor.Args)
    (s : Int) (tk : CoinPriceMonitor.Tick) (price : F64)
    (hf : CoinPriceMonitor.processCoin.fetch lib args tk = some price)
    (h : sub64 tk.now s > CoinPriceMonitor.smsInterval)
    (ha : specAlertPolicy args.alertType args.alertPrice price) :
    CoinPriceMonitor.processCoin.iter lib args s tk =
      (tk.now, [⟨tk.now, CoinPriceMonitor.mobile,
        lib.sprintf "[%s：%.2f] " [.str "", .flt price]⟩]) := by
  unfold CoinPriceMonitor.processCoin.iter
  rcases ha with ⟨h1, h2⟩ | ⟨h1, h2⟩ <;> simp [hf, h, h1, h2]

theorem iter_of_open_quiet (lib : CoinPriceMonitor.Lib) (args : CoinPriceMonitor.Args)
    (s : Int) (tk : CoinPriceMonitor.Tick) (price : F64)
    (hf : CoinPriceMonitor.processCoin.fetch lib args tk = some price)
    (h : sub64 tk.now s > CoinPriceMonitor.smsInterval)
    (ha : ¬ specAlertPolicy args.alertType args.alertPrice price) :
    CoinPriceMonitor.processCoin.iter lib args s tk = (tk.now, []) := by
  unfold CoinPriceMonitor.processCoin.iter
  unfold specAlertPolicy at ha
  simp only [not_or, not_and] at ha
  by_cases h1 : args.alertType = "lt" <;> by_cases h2 : args.alertType = "gt" <;>
    simp_all

/-- C9. For a decoded reply and a coin name among `btc`, `eth`, `sol`,
`getCoinPrice` returns the `StandardPrice` of the first record whose `CoinId` is
that coin's identifier, and it returns the error `no data` exactly when no
record of the list has that `CoinId`. -/
theorem C9_getCoinPrice_first_match (coinData : CoinPriceMonitor.CoinData)
    (coinName : String)
    (hname : coinName = "btc" ∨ coinName = "eth" ∨ coinName = "sol") :
    (CoinPriceMonitor.getCoinPrice (.ok coinData) coinName =
      match coinData.Data.find? (fun r => r.CoinId == specCoinId coinName) with
      | some r => .ok r.StandardPrice
      | none => .error "no data") ∧
    ((∃ err, CoinPriceMonitor.getCoinPrice (.ok coinData) coinName = .error err) ↔
      ∀ r ∈ coinData.Data, r.CoinId ≠ specCoinId coinName) ∧
    ((∀ r ∈ coinData.Data, r.CoinId ≠ specCoinId coinName) →
      CoinPriceMonitor.getCoinPrice (.ok coinData) coinName = .error "no data") := by
  have key := scan_eq_find coinData.Data coinName hname
  have hget : CoinPriceMonitor.getCoinPrice (.ok coinData) coinName =
      CoinPriceMonitor.getCoinPrice.scan coinData.Data coinName := rfl
  rw [hget, key]
  refine ⟨rfl, ?_, ?_⟩
  · cases hfind : coinData.Data.find? (fun r => r.CoinId == specCoinId coinName) with
    | none =>
      simp only [List.find?_eq_none] at hfind
      constructor
      · intro _ r hr
        simpa using hfind r hr
      · intro _
        exact ⟨_, rfl⟩
    | some r =>
      have hmem := List.mem_of_find?_eq_some hfind
      have hp := List.find?_some hfind
      constructor
      · rintro ⟨err, herr⟩
        cases herr
      · intro hall
        exact absurd (by simpa using hp) (hall r hmem)
  · intro hall
    have : coinData.Data.find? (fun r => r.CoinId == specCoinId coinName) = none := by
      rw [List.find?_eq_none]
      intro r hr
      simpa using hall r hr
    rw [this]

/-- Witness of C9: a reply listing ETH before BTC (twice), asked for `btc`. -/
theorem C9_getCoinPrice_first_match_witness :
    CoinPriceMonitor.getCoinPrice
      (.ok ⟨0, "", [⟨"ETHUSDT", "3000"⟩, ⟨"BTCUSDT", "49000"⟩, ⟨"BTCUSDT", "1"⟩]⟩) "btc" =
      .ok "49000" :=
  (C9_getCoinPrice_first_match
    ⟨0, "", [⟨"ETHUSDT", "3000"⟩, ⟨"BTCUSDT", "49000"⟩, ⟨"BTCUSDT", "1"⟩]⟩ "btc"
    (Or.inl rfl)).1.trans rfl

/-- C4. On a tick of `processCoin` that fetched and parsed a price and whose
cooldown has elapsed, `sendSms` is called if and only if the mode is `lt` and
the price is below the threshold, or the mode is `gt` and the price is above
it; a price equal to the threshold makes no call in either mode. -/
theorem C4_polling_dispatch_iff_policy (lib : CoinPriceMonitor.Lib)
    (args : CoinPriceMonitor.Args) (smsSentTime : Int) (tk : CoinPriceMonitor.Tick)
    (price : F64)
    (hfetch : CoinPriceMonitor.processCoin.fetch lib args tk = some price)
    (hcool : sub64 tk.now smsSentTime > CoinPriceMonitor.smsInterval) :
    ((CoinPriceMonitor.processCoin.iter lib args smsSentTime tk).2 ≠ [] ↔
      ((args.alertType = "lt" ∧ F64.lt price args.alertPrice = true) ∨
        (args.alertType = "gt" ∧ F64.gt price args.alertPrice = true))) ∧
    (price = args.alertPrice →
      (CoinPriceMonitor.processCoin.iter lib args smsSentTime tk).2 = []) := by
  constructor
  · by_cases ha : specAlertPolicy args.alertType args.alertPrice price
    · rw [iter_of_open_alert lib args smsSentTime tk price hfetch hcool ha]
      simpa using ha
    · rw [iter_of_open_quiet lib args smsSentTime tk price hfetch hcool ha]
      simpa [specAlertPolicy] using ha
  · intro heq
    have ha : ¬ specAlertPolicy args.alertType args.alertPrice price := by
      subst heq
      simp [specAlertPolicy, F64.gt, F64.lt_irrefl]
    rw [iter_of_open_quiet lib args smsSentTime tk price hfetch hcool ha]

/-- Witness of C4: mode `lt`, threshold 50000, time 1000 with `smsSentTime = 0`:
a price of 49000 makes a call, a price of exactly 50000 makes none. -/
theorem C4_polling_dispatch_iff_policy_witness :
    (CoinPriceMonitor.processCoin.iter CoinPriceMonitor.demoLib
      ⟨"btc", "lt", .fin 50000⟩ 0
      (CoinPriceMonitor.demoTick "BTCUSDT" "49000" 1000)).2 ≠ [] ∧
    (CoinPriceMonitor.processCoin.iter CoinPriceMonitor.demoLib
      ⟨"btc", "lt", .fin 50000⟩ 0
      (CoinPriceMonitor.demoTick "BTCUSDT" "50000" 1000)).2 = [] :=
  ⟨(C4_polling_dispatch_iff_policy CoinPriceMonitor.demoLib ⟨"btc", "lt", .fin 50000⟩ 0
    (CoinPriceMonitor.demoTick "BTCUSDT" "49000" 1000) (.fin 49000)
    (by decide) (by decide)).1.2 (Or.inl ⟨rfl, by decide⟩),
   (C4_polling_dispatch_iff_policy CoinPriceMonitor.demoLib ⟨"btc", "lt", .fin 50000⟩ 0
    (CoinPriceMonitor.demoTick "BTCUSDT" "50000" 1000) (.fin 50000)
    (by decide) (by decide)).2 rfl⟩

/-- C5. On a frame of `processCEX` that decodes and parses and whose cooldown has
elapsed, at most one `sendSms` call is made, and its tag follows the fixed
priority: `补` when the mark price is above 5000; otherwise `负` when the
annualized rate is below 5; otherwise `平` when the mark price is below 3200;
otherwise no call. -/
theorem C5_streaming_first_match_wins (lib : FundRateMonitor.Lib)
    (st : FundRateMonitor.LoopState) (fr : FundRateMonitor.Frame)
    (update : FundRateMonitor.MarkPriceUpdate) (rFloat pMarketPrice apy : F64)
    (hdec : lib.unmarshal fr.message = some update)
    (hrate : lib.sscanf update.EstimatedFunding = some rFloat)
    (hprice : lib.sscanf update.MarkPrice = some pMarketPrice)
    (hapy : apy = lib.mul (lib.mul (lib.mul rFloat (.fin 100)) (.fin 6)) (.fin 365))
    (hcool : sub64 fr.now st.smsSentTime > FundRateMonitor.smsInterval) :
    (FundRateMonitor.processCEX.onFrame lib st fr).2.2.length ≤ 1 ∧
    (F64.gt pMarketPrice (.fin 5000) = true →
      (FundRateMonitor.processCEX.onFrame lib st fr).2.2 =
        [⟨fr.now, "139xxxxxxxx", lib.sprintf "[年化:%.0f%%，价格：%.2f，%s]"
          [.flt apy, .flt pMarketPrice, .str "补"]⟩]) ∧
    (F64.gt pMarketPrice (.fin 5000) = false → F64.lt apy (.fin 5) = true →
      (FundRateMonitor.processCEX.onFrame lib st fr).2.2 =
        [⟨fr.now, "139xxxxxxxx", lib.sprintf "[年化:%.0f%%，价格：%.2f，%s]"
          [.flt apy, .flt pMarketPrice, .str "负"]⟩]) ∧
    (F64.gt pMarketPrice (.fin 5000) = false → F64.lt apy (.fin 5) = false →
      F64.lt pMarketPrice (.fin 3200) = true →
      (FundRateMonitor.processCEX.onFrame lib st fr).2.2 =
        [⟨fr.now, "139xxxxxxxx", lib.sprintf "[年化:%.0f%%，价格：%.2f，%s]"
          [.flt apy, .flt pMarketPrice, .str "平"]⟩]) ∧
    (F64.gt pMarketPrice (.fin 5000) = false → F64.lt apy (.fin 5) = false →
      F64.lt pMarketPrice (.fin 3200) = false →
      (FundRateMonitor.processCEX.onFrame lib st fr).2.2 = []) := by
  subst hapy
  have hcool2 : sub64 fr.now (FundRateMonitor.setMessage st
      (lib.sprintf "%s  年化:%.0f  标价:%.2f  费率:%.4f  符号:%s\n"
        [.str (lib.formatTime update.EventTime),
          .flt (lib.mul (lib.mul (lib.mul rFloat (.fin 100)) (.fin 6)) (.fin 365)),
          .flt pMarketPrice, .flt (lib.mul rFloat (.fin 100)),
          .str FundRateMonitor.symbol])).smsSentTime > FundRateMonitor.smsInterval := hcool
  unfold FundRateMonitor.processCEX.onFrame
  simp only [hdec, hrate, hprice, hcool2, if_true, FundRateMonitor.liquidThreshold,
    FundRateMonitor.rateThreshold, FundRateMonitor.closingThread, FundRateMonitor.mobile]
  refine ⟨?_, ?_, ?_, ?_, ?_⟩
  · split_ifs <;> simp
  · intro h1; simp [h1]
  · intro h1 h2; simp [h1, h2]
  · intro h1 h2 h3; simp [h1, h2, h3]
  · intro h1 h2 h3; simp [h1, h2, h3]

/-- Witness of C5: mark price 6000 and funding rate 0, so that the price is above
5000 and the annualized rate 0 is below 5 at once; the one call carries `补`. -/
theorem C5_streaming_first_match_wins_witness :
    F64.gt (.fin 6000) (.fin 5000) = true ∧ F64.lt (.fin 0) (.fin 5) = true ∧
    (FundRateMonitor.processCEX.onFrame FundRateMonitor.demoLib ⟨"", 0⟩
      ⟨"6000 0", 1000, .response none 200⟩).2.2 =
        [⟨1000, "139xxxxxxxx", "[年化:0%，价格：6000.00，补]"⟩] :=
  ⟨by decide, by decide,
   ((C5_streaming_first_match_wins FundRateMonitor.demoLib ⟨"", 0⟩
      ⟨"6000 0", 1000, .response none 200⟩
      ⟨"markPriceUpdate", 0, "ETHUSDT", "6000", "0", 0⟩ (.fin 0) (.fin 6000) (.fin 0)
      (by decide) (by decide) (by decide) (by decide) (by decide)).2.1
      (by decide)).trans (by decide)⟩

/-- C8. For a frame of `processCEX` on which the JSON decode, the funding-rate
parse or the mark-price parse fails, `getMessage` returns the same string after
the frame as before it and no `sendSms` call is made. -/
theorem C8_streaming_malformed_frame_inert (lib : FundRateMonitor.Lib)
    (st : FundRateMonitor.LoopState) (fr : FundRateMonitor.Frame)
    (hbad : lib.unmarshal fr.message = none ∨
      ∃ update, lib.unmarshal fr.message = some update ∧
        (lib.sscanf update.EstimatedFunding = none ∨
          lib.sscanf update.MarkPrice = none)) :
    FundRateMonitor.getMessage (FundRateMonitor.processCEX.onFrame lib st fr).2.1 =
      FundRateMonitor.getMessage st ∧
    (FundRateMonitor.processCEX.onFrame lib st fr).2.2 = [] := by
  unfold FundRateMonitor.processCEX.onFrame
  rcases hbad with h | ⟨update, hu, h | h⟩
  · simp [h]
  · simp [hu, h]
  · cases hr : lib.sscanf update.EstimatedFunding <;> simp [hu, hr, h]

/-- Witness of C8: with `msg` holding `old`, a frame whose funding rate does not
parse leaves `msg` alone and sends nothing. -/
theorem C8_streaming_malformed_frame_inert_witness :
    FundRateMonitor.getMessage (FundRateMonitor.processCEX.onFrame
      FundRateMonitor.demoLib ⟨"old", 0⟩ ⟨"6000 x", 1000, .response none 200⟩).2.1 =
      "old" ∧
    (FundRateMonitor.processCEX.onFrame FundRateMonitor.demoLib ⟨"old", 0⟩
      ⟨"6000 x", 1000, .response none 200⟩).2.2 = [] :=
  C8_streaming_malformed_frame_inert FundRateMonitor.demoLib ⟨"old", 0⟩
    ⟨"6000 x", 1000, .response none 200⟩
    (Or.inr ⟨⟨"markPriceUpdate", 0, "ETHUSDT", "6000", "x", 0⟩, by decide,
      Or.inl (by decide)⟩)

theorem iter_snd_ne_nil (lib : CoinPriceMonitor.Lib) (args : CoinPriceMonitor.Args)
    (s : Int) (tk : CoinPriceMonitor.Tick)
    (h : (CoinPriceMonitor.processCoin.iter lib args s tk).2 ≠ []) :
    sub64 tk.now s > CoinPriceMonitor.smsInterval ∧
      (CoinPriceMonitor.processCoin.iter lib args s tk).1 = tk.now ∧
      ∃ price, CoinPriceMonitor.processCoin.fetch lib args tk = some price ∧
        (CoinPriceMonitor.processCoin.iter lib args s tk).2 =
          [⟨tk.now, CoinPriceMonitor.mobile,
            lib.sprintf "[%s：%.2f] " [.str "", .flt price]⟩] := by
  by_cases hc : sub64 tk.now s > CoinPriceMonitor.smsInterval
  · cases hf : CoinPriceMonitor.processCoin.fetch lib args tk with
    | none => rw [iter_of_fetch_none lib args s tk hf] at h; exact absurd rfl h
    | some price =>
      by_cases ha : specAlertPolicy args.alertType args.alertPrice price
      · rw [iter_of_open_alert lib args s tk price hf hc ha]
        exact ⟨hc, rfl, price, rfl, rfl⟩
      · rw [iter_of_open_quiet lib args s tk price hf hc ha] at h
        exact absurd rfl h
  · rw [iter_of_closed lib args s tk hc] at h
    exact absurd rfl h

theorem onFrame_snd_ne_nil (lib : FundRateMonitor.Lib) (st : FundRateMonitor.LoopState)
    (fr : FundRateMonitor.Frame)
    (h : (FundRateMonitor.processCEX.onFrame lib st fr).2.2 ≠ []) :
    sub64 fr.now st.smsSentTime > FundRateMonitor.smsInterval ∧
      (FundRateMonitor.processCEX.onFrame lib st fr).2.1.smsSentTime = fr.now ∧
      (FundRateMonitor.processCEX.onFrame lib st fr).1 = .next ∧
      ∀ c ∈ (FundRateMonitor.processCEX.onFrame lib st fr).2.2, c.time = fr.now := by
  unfold FundRateMonitor.processCEX.onFrame at h ⊢
  cases hu : lib.unmarshal fr.message with
  | none => simp [hu] at h
  | some update =>
    cases hr : lib.sscanf update.EstimatedFunding with
    | none => simp [hu, hr] at h
    | some rFloat =>
      cases hp : lib.sscanf update.MarkPrice with
      | none => simp [hu, hr, hp] at h
      | some pMarketPrice =>
        simp only [hu, hr, hp] at h ⊢
        by_cases hc : sub64 fr.now st.smsSentTime > FundRateMonitor.smsInterval
        · have hc2 : sub64 fr.now (FundRateMonitor.setMessage st
              (lib.sprintf "%s  年化:%.0f  标价:%.2f  费率:%.4f  符号:%s\n"
                [.str (lib.formatTime update.EventTime),
                  .flt (lib.mul (lib.mul (lib.mul rFloat (.fin 100)) (.fin 6)) (.fin 365)),
                  .flt pMarketPrice, .flt (lib.mul rFloat (.fin 100)),
                  .str FundRateMonitor.symbol])).smsSentTime >
                FundRateMonitor.smsInterval := hc
          simp only [hc2, if_true]
          refine ⟨hc, ?_, ?_, ?_⟩ <;> split_ifs <;> simp
        · have hc2 : ¬ sub64 fr.now (FundRateMonitor.setMessage st
              (lib.sprintf "%s  年化:%.0f  标价:%.2f  费率:%.4f  符号:%s\n"
                [.str (lib.formatTime update.EventTime),
                  .flt (lib.mul (lib.mul (lib.mul rFloat (.fin 100)) (.fin 6)) (.fin 365)),
                  .flt pMarketPrice, .flt (lib.mul rFloat (.fin 100)),
                  .str FundRateMonitor.symbol])).smsSentTime >
                FundRateMonitor.smsInterval := hc
          simp [hc2] at h

/-- C6. In both programs the gateway's answer plays no part in a tick: with any
two gateway replies (so also one on which `sendSms` returns nil and one on which
it returns an error) the loop body yields the same variables and the same calls,
and on every tick on which `sendSms` is called `smsSentTime` afterwards equals
that tick's current time. -/
theorem C6_dispatch_resets_cooldown_whatever_gateway
    (libP : CoinPriceMonitor.Lib) (args : CoinPriceMonitor.Args) (smsSentTime : Int)
    (tk : CoinPriceMonitor.Tick)
    (libS : FundRateMonitor.Lib) (st : FundRateMonitor.LoopState)
    (fr : FundRateMonitor.Frame) (g1 g2 : GatewayReply) :
    (CoinPriceMonitor.processCoin.iter libP args smsSentTime { tk with gateway := g1 } =
      CoinPriceMonitor.processCoin.iter libP args smsSentTime { tk with gateway := g2 }) ∧
    ((CoinPriceMonitor.processCoin.iter libP args smsSentTime tk).2 ≠ [] →
      (CoinPriceMonitor.processCoin.iter libP args smsSentTime tk).1 = tk.now) ∧
    (FundRateMonitor.processCEX.onFrame libS st { fr with gateway := g1 } =
      FundRateMonitor.processCEX.onFrame libS st { fr with gateway := g2 }) ∧
    ((FundRateMonitor.processCEX.onFrame libS st fr).2.2 ≠ [] →
      (FundRateMonitor.processCEX.onFrame libS st fr).2.1.smsSentTime = fr.now) :=
  ⟨rfl, fun h => (iter_snd_ne_nil libP args smsSentTime tk h).2.1, rfl,
    fun h => (onFrame_snd_ne_nil libS st fr h).2.1⟩

/-- Witness of C6: a dispatching tick of each program, once with a gateway that
answers 200 (`sendSms` returns nil) and once with a failing `http.Post`. -/
theorem C6_dispatch_resets_cooldown_whatever_gateway_witness :
    CoinPriceMonitor.sendSms (.response none 200) "139xxxxxxxx" "" = none ∧
    CoinPriceMonitor.sendSms (.postError "timeout") "139xxxxxxxx" "" = some "timeout" ∧
    (CoinPriceMonitor.processCoin.iter CoinPriceMonitor.demoLib
      ⟨"btc", "lt", .fin 50000⟩ 0
      ⟨.ok ⟨0, "", [⟨"BTCUSDT", "49000"⟩]⟩, 1000, .postError "timeout"⟩).1 = 1000 ∧
    (FundRateMonitor.processCEX.onFrame FundRateMonitor.demoLib ⟨"", 0⟩
      ⟨"6000 1", 1000, .postError "timeout"⟩).2.1.smsSentTime = 1000 :=
  ⟨rfl, rfl,
   (C6_dispatch_resets_cooldown_whatever_gateway CoinPriceMonitor.demoLib
      ⟨"btc", "lt", .fin 50000⟩ 0
      ⟨.ok ⟨0, "", [⟨"BTCUSDT", "49000"⟩]⟩, 1000, .postError "timeout"⟩
      FundRateMonitor.demoLib ⟨"", 0⟩ ⟨"6000 1", 1000, .postError "timeout"⟩
      (.response none 200) (.postError "timeout")).2.1 (by decide),
   (C6_dispatch_resets_cooldown_whatever_gateway CoinPriceMonitor.demoLib
      ⟨"btc", "lt", .fin 50000⟩ 0
      ⟨.ok ⟨0, "", [⟨"BTCUSDT", "49000"⟩]⟩, 1000, .postError "timeout"⟩
      FundRateMonitor.demoLib ⟨"", 0⟩ ⟨"6000 1", 1000, .postError "timeout"⟩
      (.response none 200) (.postError "timeout")).2.2.2 (by decide)⟩

theorem iter_cases (lib : CoinPriceMonitor.Lib) (args : CoinPriceMonitor.Args)
    (s : Int) (tk : CoinPriceMonitor.Tick) :
    CoinPriceMonitor.processCoin.iter lib args s tk = (s, []) ∨
      (sub64 tk.now s > CoinPriceMonitor.smsInterval ∧
        (CoinPriceMonitor.processCoin.iter lib args s tk = (tk.now, []) ∨
          ∃ content, CoinPriceMonitor.processCoin.iter lib args s tk =
            (tk.now, [⟨tk.now, CoinPriceMonitor.mobile, content⟩]))) := by
  by_cases hc : sub64 tk.now s > CoinPriceMonitor.smsInterval
  · cases hf : CoinPriceMonitor.processCoin.fetch lib args tk with
    | none => exact Or.inl (iter_of_fetch_none lib args s tk hf)
    | some price =>
      by_cases ha : specAlertPolicy args.alertType args.alertPrice price
      · exact Or.inr ⟨hc, Or.inr ⟨_, iter_of_open_alert lib args s tk price hf hc ha⟩⟩
      · exact Or.inr ⟨hc, Or.inl (iter_of_open_quiet lib args s tk price hf hc ha)⟩
  · exact Or.inl (iter_of_closed lib args s tk hc)

theorem loop_cons (lib : CoinPriceMonitor.Lib) (args : CoinPriceMonitor.Args)
    (s : Int) (tk : CoinPriceMonitor.Tick) (rest : List CoinPriceMonitor.Tick) :
    CoinPriceMonitor.processCoin.loop lib args s (tk :: rest) =
      ((CoinPriceMonitor.processCoin.loop lib args
          (CoinPriceMonitor.processCoin.iter lib args s tk).1 rest).1,
        (CoinPriceMonitor.processCoin.iter lib args s tk).2 ++
          (CoinPriceMonitor.processCoin.loop lib args
            (CoinPriceMonitor.processCoin.iter lib args s tk).1 rest).2) := rfl

theorem loop_append (lib : CoinPriceMonitor.Lib) (args : CoinPriceMonitor.Args)
    (xs ys : List CoinPriceMonitor.Tick) (s : Int) :
    CoinPriceMonitor.processCoin.loop lib args s (xs ++ ys) =
      ((CoinPriceMonitor.processCoin.loop lib args
          (CoinPriceMonitor.processCoin.loop lib args s xs).1 ys).1,
        (CoinPriceMonitor.processCoin.loop lib args s xs).2 ++
          (CoinPriceMonitor.processCoin.loop lib args
            (CoinPriceMonitor.processCoin.loop lib args s xs).1 ys).2) := by
  induction xs generalizing s with
  | nil => simp [CoinPriceMonitor.processCoin.loop]
  | cons x xs ih => simp [loop_cons, ih, List.append_assoc]

/-- Within the clock range, every call of the polling loop comes more than
`smsInterval` after the `smsSentTime` the loop was entered with, and any two
calls are more than `smsInterval` apart. -/
theorem loop_spaced (lib : CoinPriceMonitor.Lib) (args : CoinPriceMonitor.Args)
    (ticks : List CoinPriceMonitor.Tick) (s : Int) (hs : clockRange s)
    (hclock : ∀ tk ∈ ticks, clockRange tk.now) :
    (∀ c ∈ (CoinPriceMonitor.processCoin.loop lib args s ticks).2, c.time - s > 600) ∧
      (CoinPriceMonitor.processCoin.loop lib args s ticks).2.Pairwise
        (fun c d => d.time - c.time > 600) := by
  induction ticks generalizing s with
  | nil => simp [CoinPriceMonitor.processCoin.loop]
  | cons tk rest ih =>
    have htk : clockRange tk.now := hclock tk (List.mem_cons_self _ _)
    have hrest : ∀ t ∈ rest, clockRange t.now :=
      fun t ht => hclock t (List.mem_cons_of_mem _ ht)
    rw [loop_cons]
    rcases iter_cases lib args s tk with h | ⟨hopen, h | ⟨content, h⟩⟩
    · rw [h]
      simpa using ih s hs hrest
    · rw [sub64_of_clockRange _ _ htk hs] at hopen
      have hopen2 : tk.now - s > 600 := hopen
      obtain ⟨ih1, ih2⟩ := ih tk.now htk hrest
      rw [h]
      refine ⟨fun c hc => ?_, by simpa using ih2⟩
      have := ih1 c (by simpa using hc)
      omega
    · rw [sub64_of_clockRange _ _ htk hs] at hopen
      have hopen2 : tk.now - s > 600 := hopen
      obtain ⟨ih1, ih2⟩ := ih tk.now htk hrest
      rw [h]
      constructor
      · intro c hc
        simp only [List.singleton_append, List.mem_cons] at hc
        rcases hc with hc | hc
        · subst hc
          exact hopen2
        · have := ih1 c hc
          omega
      · simp only [List.singleton_append, List.pairwise_cons]
        exact ⟨fun c hc => ih1 c hc, ih2⟩

/-- C1. In the polling program, for every finite sequence of ticks whose clock
readings lie in the clock range, starting from `smsSentTime = 0`, any two
`sendSms` calls are made at current times more than 600 seconds apart (the later
one more than 600 seconds after the earlier one). -/
theorem C1_polling_calls_more_than_cooldown_apart (lib : CoinPriceMonitor.Lib)
    (args : CoinPriceMonitor.Args) (ticks : List CoinPriceMonitor.Tick)
    (hclock : ∀ tk ∈ ticks, clockRange tk.now) :
    (CoinPriceMonitor.processCoin lib args ticks).2.Pairwise
      (fun c d => d.time - c.time > 600) :=
  (loop_spaced lib args ticks 0 clockRange_zero hclock).2

/-- Witness of C1: three alert-worthy ticks at times 1000, 1005 and 1700. -/
theorem C1_polling_calls_more_than_cooldown_apart_witness :
    (CoinPriceMonitor.processCoin CoinPriceMonitor.demoLib ⟨"btc", "lt", .fin 50000⟩
      [CoinPriceMonitor.demoTick "BTCUSDT" "49000" 1000,
        CoinPriceMonitor.demoTick "BTCUSDT" "49500" 1005,
        CoinPriceMonitor.demoTick "BTCUSDT" "49200" 1700]).2.Pairwise
      (fun c d => d.time - c.time > 600) :=
  C1_polling_calls_more_than_cooldown_apart CoinPriceMonitor.demoLib
    ⟨"btc", "lt", .fin 50000⟩
    [CoinPriceMonitor.demoTick "BTCUSDT" "49000" 1000,
      CoinPriceMonitor.demoTick "BTCUSDT" "49500" 1005,
      CoinPriceMonitor.demoTick "BTCUSDT" "49200" 1700]
    (by decide)

theorem loop_all_closed (lib : CoinPriceMonitor.Lib) (args : CoinPriceMonitor.Args)
    (s : Int) (mid : List CoinPriceMonitor.Tick)
    (h : ∀ tk ∈ mid, ¬ sub64 tk.now s > CoinPriceMonitor.smsInterval) :
    CoinPriceMonitor.processCoin.loop lib args s mid = (s, []) := by
  induction mid with
  | nil => rfl
  | cons tk rest ih =>
    rw [loop_cons, iter_of_closed lib args s tk (h tk (List.mem_cons_self _ _))]
    simp [ih (fun t ht => h t (List.mem_cons_of_mem _ ht))]

/-- Counterexample to C3 as stated. Mode `lt`, threshold 50000, four ticks at
times 1000, 1500, 1700 and 2150, every one with the alert-worthy price 49000.
The ticks at 1500 and 2150 are 650 seconds apart, yet the calls are made at 1000
and 1700 only: each of the two falls inside the cooldown of an earlier call. -/
theorem C3_counterexample :
    CoinPriceMonitor.processCoin.fetch CoinPriceMonitor.demoLib
      ⟨"btc", "lt", .fin 50000⟩ (CoinPriceMonitor.demoTick "BTCUSDT" "49000" 1500) =
      some (.fin 49000) ∧
    CoinPriceMonitor.processCoin.fetch CoinPriceMonitor.demoLib
      ⟨"btc", "lt", .fin 50000⟩ (CoinPriceMonitor.demoTick "BTCUSDT" "49000" 2150) =
      some (.fin 49000) ∧
    specAlertPolicy "lt" (.fin 50000) (.fin 49000) ∧
    (CoinPriceMonitor.demoTick "BTCUSDT" "49000" 2150).now -
      (CoinPriceMonitor.demoTick "BTCUSDT" "49000" 1500).now > 600 ∧
    (CoinPriceMonitor.processCoin CoinPriceMonitor.demoLib ⟨"btc", "lt", .fin 50000⟩
      [CoinPriceMonitor.demoTick "BTCUSDT" "49000" 1000,
        CoinPriceMonitor.demoTick "BTCUSDT" "49000" 1500,
        CoinPriceMonitor.demoTick "BTCUSDT" "49000" 1700,
        CoinPriceMonitor.demoTick "BTCUSDT" "49000" 2150]).2 =
      [⟨1000, "139xxxxxxxx", "[：49000.00] "⟩, ⟨1700, "139xxxxxxxx", "[：49000.00] "⟩] := by
  decide

/-- C3, amended. In the polling program, let two ticks `a` and `b` of a run both
carry an alert-worthy price, with the cooldown elapsed when `a` is reached
(`currentTime - smsSentTime > 600` on the `smsSentTime` the earlier ticks left),
`b` more than 600 seconds after `a`, and every tick between them at most 600
seconds after `a`. Then `sendSms` is called at `a` and at `b`, and at no tick
in between. -/
theorem C3_polling_two_dispatches_across_cooldown (lib : CoinPriceMonitor.Lib)
    (args : CoinPriceMonitor.Args) (pre mid post : List CoinPriceMonitor.Tick)
    (a b : CoinPriceMonitor.Tick) (pa pb : F64)
    (hfa : CoinPriceMonitor.processCoin.fetch lib args a = some pa)
    (hpa : specAlertPolicy args.alertType args.alertPrice pa)
    (hfb : CoinPriceMonitor.processCoin.fetch lib args b = some pb)
    (hpb : specAlertPolicy args.alertType args.alertPrice pb)
    (hopen : sub64 a.now (CoinPriceMonitor.processCoin lib args pre).1 > 600)
    (hclock : ∀ tk ∈ a :: b :: mid, clockRange tk.now)
    (hmid : ∀ tk ∈ mid, tk.now - a.now ≤ 600)
    (hfar : b.now - a.now > 600) :
    (CoinPriceMonitor.processCoin lib args (pre ++ a :: (mid ++ b :: post))).2 =
      (CoinPriceMonitor.processCoin lib args pre).2 ++
        ⟨a.now, "139xxxxxxxx", lib.sprintf "[%s：%.2f] " [.str "", .flt pa]⟩ ::
        ⟨b.now, "139xxxxxxxx", lib.sprintf "[%s：%.2f] " [.str "", .flt pb]⟩ ::
        (CoinPriceMonitor.processCoin.loop lib args b.now post).2 := by
  have hca : clockRange a.now := hclock a (by simp)
  have hcb : clockRange b.now := hclock b (by simp)
  have hclosed : ∀ tk ∈ mid, ¬ sub64 tk.now a.now > CoinPriceMonitor.smsInterval := by
    intro tk htk
    rw [sub64_of_clockRange _ _ (hclock tk (by simp [htk])) hca]
    have := hmid tk htk
    simp only [CoinPriceMonitor.smsInterval]
    omega
  have hb : sub64 b.now a.now > CoinPriceMonitor.smsInterval := by
    rw [sub64_of_clockRange _ _ hcb hca]
    exact hfar
  unfold CoinPriceMonitor.processCoin at hopen ⊢
  rw [loop_append, loop_cons,
    iter_of_open_alert lib args _ a pa hfa hopen hpa, loop_append,
    loop_all_closed lib args a.now mid hclosed, loop_cons,
    iter_of_open_alert lib args _ b pb hfb hb hpb]
  simp [CoinPriceMonitor.mobile]

/-- Witness of the amended C3, the scenario of the specification: threshold
`lt 50000`; 49000 at time 1000 is sent, 49500 five seconds later is not, 49200
at 700 seconds after the first call is sent. -/
theorem C3_polling_two_dispatches_across_cooldown_witness :
    (CoinPriceMonitor.processCoin CoinPriceMonitor.demoLib ⟨"btc", "lt", .fin 50000⟩
      [CoinPriceMonitor.demoTick "BTCUSDT" "49000" 1000,
        CoinPriceMonitor.demoTick "BTCUSDT" "49500" 1005,
        CoinPriceMonitor.demoTick "BTCUSDT" "49200" 1700]).2 =
      [⟨1000, "139xxxxxxxx", "[：49000.00] "⟩, ⟨1700, "139xxxxxxxx", "[：49200.00] "⟩] :=
  (C3_polling_two_dispatches_across_cooldown CoinPriceMonitor.demoLib
    ⟨"btc", "lt", .fin 50000⟩ []
    [CoinPriceMonitor.demoTick "BTCUSDT" "49500" 1005] []
    (CoinPriceMonitor.demoTick "BTCUSDT" "49000" 1000)
    (CoinPriceMonitor.demoTick "BTCUSDT" "49200" 1700) (.fin 49000) (.fin 49200)
    (by decide) (by decide) (by decide) (by decide) (by decide) (by decide) (by decide)
    (by decide)).trans (by decide)

/-- C10, the code at a failing input. Coin `btc`, mode `lt`, threshold 50000, the
price 49000 at time 1000: the one `sendSms` call carries the template filled
with the empty label instead of `大饼`. -/
theorem C10_label_is_empty :
    CoinPriceMonitor.processCoin.iter CoinPriceMonitor.demoLib
      ⟨"btc", "lt", .fin 50000⟩ 0 (CoinPriceMonitor.demoTick "BTCUSDT" "49000" 1000) =
      (1000, [⟨1000, "139xxxxxxxx", "[：49000.00] "⟩]) ∧
    CoinPriceMonitor.demoLib.sprintf "[%s：%.2f] " [.str "大饼", .flt (.fin 49000)] =
      "[大饼：49000.00] " := by
  decide

/-- C7, the code at a failing input, in both programs. Polling: mode `lt`,
threshold 50000, `smsSentTime = 0`, price 60000 at time 1000. Streaming:
`smsSentTime = 0`, mark price 4000 with an annualized rate of 219000 at time
1000. Neither tick calls `sendSms`, and both leave `smsSentTime = 1000`. -/
theorem C7_quiet_tick_moves_smsSentTime :
    CoinPriceMonitor.processCoin.iter CoinPriceMonitor.demoLib
      ⟨"btc", "lt", .fin 50000⟩ 0 (CoinPriceMonitor.demoTick "BTCUSDT" "60000" 1000) =
      (1000, []) ∧
    (FundRateMonitor.processCEX.onFrame FundRateMonitor.demoLib ⟨"", 0⟩
      ⟨"4000 1", 1000, .response none 200⟩).2.2 = [] ∧
    (FundRateMonitor.processCEX.onFrame FundRateMonitor.demoLib ⟨"", 0⟩
      ⟨"4000 1", 1000, .response none 200⟩).2.1.smsSentTime = 1000 := by
  decide

theorem onFrame_smsSentTime (lib : FundRateMonitor.Lib) (st : FundRateMonitor.LoopState)
    (fr : FundRateMonitor.Frame) :
    (FundRateMonitor.processCEX.onFrame lib st fr).2.1.smsSentTime = st.smsSentTime ∨
      (sub64 fr.now st.smsSentTime > FundRateMonitor.smsInterval ∧
        (FundRateMonitor.processCEX.onFrame lib st fr).2.1.smsSentTime = fr.now) := by
  unfold FundRateMonitor.processCEX.onFrame
  cases hu : lib.unmarshal fr.message with
  | none => simp
  | some update =>
    cases hr : lib.sscanf update.EstimatedFunding with
    | none => simp [hr]
    | some rFloat =>
      cases hp : lib.sscanf update.MarkPrice with
      | none => simp [hr, hp]
      | some pMarketPrice =>
        simp only [hr, hp]
        by_cases hc : sub64 fr.now st.smsSentTime > FundRateMonitor.smsInterval
        · have hc2 : sub64 fr.now (FundRateMonitor.setMessage st
              (lib.sprintf "%s  年化:%.0f  标价:%.2f  费率:%.4f  符号:%s\n"
                [.str (lib.formatTime update.EventTime),
                  .flt (lib.mul (lib.mul (lib.mul rFloat (.fin 100)) (.fin 6)) (.fin 365)),
                  .flt pMarketPrice, .flt (lib.mul rFloat (.fin 100)),
                  .str FundRateMonitor.symbol])).smsSentTime >
                FundRateMonitor.smsInterval := hc
          simp only [hc2, if_true]
          refine Or.inr ⟨hc, ?_⟩
          split_ifs <;> rfl
        · have hc2 : ¬ sub64 fr.now (FundRateMonitor.setMessage st
              (lib.sprintf "%s  年化:%.0f  标价:%.2f  费率:%.4f  符号:%s\n"
                [.str (lib.formatTime update.EventTime),
                  .flt (lib.mul (lib.mul (lib.mul rFloat (.fin 100)) (.fin 6)) (.fin 365)),
                  .flt pMarketPrice, .flt (lib.mul rFloat (.fin 100)),
                  .str FundRateMonitor.symbol])).smsSentTime >
                FundRateMonitor.smsInterval := hc
          simp only [hc2, if_false]
          exact Or.inl rfl

theorem onFrame_cases (lib : FundRateMonitor.Lib) (st : FundRateMonitor.LoopState)
    (fr : FundRateMonitor.Frame) :
    ((FundRateMonitor.processCEX.onFrame lib st fr).2.2 = [] ∧
      (FundRateMonitor.processCEX.onFrame lib st fr).2.1.smsSentTime = st.smsSentTime) ∨
    (sub64 fr.now st.smsSentTime > FundRateMonitor.smsInterval ∧
      (FundRateMonitor.processCEX.onFrame lib st fr).2.1.smsSentTime = fr.now ∧
      ∀ c ∈ (FundRateMonitor.processCEX.onFrame lib st fr).2.2, c.time = fr.now) := by
  by_cases hn : (FundRateMonitor.processCEX.onFrame lib st fr).2.2 = []
  · rcases onFrame_smsSentTime lib st fr with h | ⟨hc, h⟩
    · exact Or.inl ⟨hn, h⟩
    · exact Or.inr ⟨hc, h, by simp [hn]⟩
  · have h := onFrame_snd_ne_nil lib st fr hn
    exact Or.inr ⟨h.1, h.2.1, h.2.2.2⟩

theorem onFrame_calls_length (lib : FundRateMonitor.Lib) (st : FundRateMonitor.LoopState)
    (fr : FundRateMonitor.Frame) :
    (FundRateMonitor.processCEX.onFrame lib st fr).2.2.length ≤ 1 := by
  unfold FundRateMonitor.processCEX.onFrame
  cases hu : lib.unmarshal fr.message with
  | none => simp
  | some update =>
    cases hr : lib.sscanf update.EstimatedFunding with
    | none => simp [hr]
    | some rFloat =>
      cases hp : lib.sscanf update.MarkPrice with
      | none => simp [hr, hp]
      | some pMarketPrice =>
        simp only [hr, hp]
        split_ifs <;> simp

theorem inner_cons (lib : FundRateMonitor.Lib) (st : FundRateMonitor.LoopState)
    (fr : FundRateMonitor.Frame) (rest : List FundRateMonitor.Frame) :
    FundRateMonitor.processCEX.inner lib st (fr :: rest) =
      if (FundRateMonitor.processCEX.onFrame lib st fr).1 = .brk then
        (FundRateMonitor.processCEX.onFrame lib st fr).2
      else
        ((FundRateMonitor.processCEX.inner lib
            (FundRateMonitor.processCEX.onFrame lib st fr).2.1 rest).1,
          (FundRateMonitor.processCEX.onFrame lib st fr).2.2 ++
            (FundRateMonitor.processCEX.inner lib
              (FundRateMonitor.processCEX.onFrame lib st fr).2.1 rest).2) := by
  rw [FundRateMonitor.processCEX.inner]
  rcases FundRateMonitor.processCEX.onFrame lib st fr with ⟨flow, st1, calls⟩
  cases flow <;> simp

/-- On one connection of the streaming program, within the clock range, any two
`sendSms` calls are more than `smsInterval` apart. -/
theorem inner_spaced (lib : FundRateMonitor.Lib) (frames : List FundRateMonitor.Frame)
    (st : FundRateMonitor.LoopState) (hs : clockRange st.smsSentTime)
    (hclock : ∀ fr ∈ frames, clockRange fr.now) :
    (∀ c ∈ (FundRateMonitor.processCEX.inner lib st frames).2,
        c.time - st.smsSentTime > 600) ∧
      (FundRateMonitor.processCEX.inner lib st frames).2.Pairwise
        (fun c d => d.time - c.time > 600) := by
  induction frames generalizing st with
  | nil => simp [FundRateMonitor.processCEX.inner]
  | cons fr rest ih =>
    have hfr : clockRange fr.now := hclock fr (List.mem_cons_self _ _)
    have hrest : ∀ t ∈ rest, clockRange t.now :=
      fun t ht => hclock t (List.mem_cons_of_mem _ ht)
    have hhead : (∀ c ∈ (FundRateMonitor.processCEX.onFrame lib st fr).2.2,
          c.time - st.smsSentTime > 600 ∧ c.time = fr.now) ∧
        (FundRateMonitor.processCEX.onFrame lib st fr).2.2.Pairwise
          (fun c d => d.time - c.time > 600) ∧
        clockRange (FundRateMonitor.processCEX.onFrame lib st fr).2.1.smsSentTime ∧
        (FundRateMonitor.processCEX.onFrame lib st fr).2.1.smsSentTime ≥ st.smsSentTime ∧
        ∀ c ∈ (FundRateMonitor.processCEX.onFrame lib st fr).2.2,
          c.time = (FundRateMonitor.processCEX.onFrame lib st fr).2.1.smsSentTime := by
      rcases onFrame_cases lib st fr with ⟨h1, h2⟩ | ⟨hopen, h2, h3⟩
      · rw [h1, h2]
        simp [hs]
      · rw [sub64_of_clockRange _ _ hfr hs] at hopen
        have hopen2 : fr.now - st.smsSentTime > 600 := hopen
        rw [h2]
        refine ⟨fun c hc => ⟨by rw [h3 c hc]; exact hopen2, h3 c hc⟩, ?_, hfr, by omega, h3⟩
        rw [List.pairwise_iff_forall_sublist]
        intro c d hsub
        have hc := h3 c (hsub.subset (by simp))
        have hd := h3 d (hsub.subset (by simp))
        have hlen := onFrame_calls_length lib st fr
        have := hsub.length_le
        simp at this
        omega
    obtain ⟨hh1, hh2, hh3, hh4, hh5⟩ := hhead
    rw [inner_cons]
    split_ifs with hflow
    · exact ⟨fun c hc => (hh1 c hc).1, hh2⟩
    · obtain ⟨ih1, ih2⟩ := ih _ hh3 hrest
      constructor
      · intro c hc
        rcases List.mem_append.mp hc with hc | hc
        · exact (hh1 c hc).1
        · have := ih1 c hc
          omega
      · rw [List.pairwise_append]
        refine ⟨hh2, ih2, fun c hc d hd => ?_⟩
        have := ih1 d hd
        rw [hh5 c hc]
        exact this

/-- C2, the code at a failing input. A connection delivers one frame with mark
price 6000 at time 1000 and is lost; the next connection delivers the same at
time 1010. `sendSms` is called for both, ten seconds apart, because
`smsSentTime` starts again from 0 after every dial. -/
theorem C2_reconnect_restarts_cooldown :
    (FundRateMonitor.processCEX FundRateMonitor.demoLib
      [.connected [⟨"6000 1", 1000, .response none 200⟩], .dialError,
        .connected [⟨"6000 1", 1010, .response none 200⟩]]).2 =
      [⟨1000, "139xxxxxxxx", "[年化:219000%，价格：6000.00，补]"⟩,
        ⟨1010, "139xxxxxxxx", "[年化:219000%，价格：6000.00，补]"⟩] := by
  decide

end Arbitrage
